import Mathlib

/-!
# Verification of the youtube-audio-bot download/convert/validate pipeline

This file embeds the pipeline of `src/bot/youtube_downloader.py` (URL
validation, URL normalization, metadata probe, constraint checks, media
fetch, transcode, size re-check), the configuration object of
`src/settings.py`, and the persistence operations of `src/bot/database.py`
as executable Lean definitions, and proves properties about them.

Conventions:
* Python strings are `String` / `List Char`; machine integers are `Nat`.
* Code that can raise is modelled with `Except PyError`; a bare Python
  exception is `PyError` carrying its message text.
* The external delegates (pytubefix, pydub, aiosqlite, the filesystem) are
  modelled as oracles supplied through an `Env` record, so theorems
  quantify over every delegate behaviour, including raised exceptions.
-/

/-- A raised Python exception, identified by its message text (the code
only ever inspects `str(e)`). -/
structure PyError where
  msg : String
deriving DecidableEq, Repr

deriving instance DecidableEq for Except

/-! Section: character classes and basic scanning helpers. -/

/-- The character class `[^&=%\?]` of the validator regex: any character
other than `&`, `=`, `%`, `?` (newline included, since a negated class
matches it). -/
def goodChar (c : Char) : Bool :=
  !(c = '&' || c = '=' || c = '%' || c = '?')

/-- The character class `[a-zA-Z0-9_-]` of the `_clean_url` patterns. -/
def idChar (c : Char) : Bool :=
  c.isAlphanum || c = '_' || c = '-'

/-- Consume a literal: `consumeLit p l = some r` iff `l = p ++ r`. -/
def consumeLit : List Char → List Char → Option (List Char)
  | [], l => some l
  | _ :: _, [] => none
  | p :: ps, c :: cs => if p = c then consumeLit ps cs else none

/-- Consume exactly `n` characters satisfying `p`, returning the consumed
token and the remainder (the `{n}` repetition of a character class). -/
def takeChars (p : Char → Bool) : Nat → List Char → Option (List Char × List Char)
  | 0, l => some ([], l)
  | _ + 1, [] => none
  | n + 1, c :: cs =>
      if p c then (takeChars p n cs).map (fun x => (c :: x.1, x.2)) else none

/-- Python substring membership `needle in hay`. -/
def strIn (needle : List Char) : List Char → Bool
  | [] => needle.isEmpty
  | c :: t => needle.isPrefixOf (c :: t) || strIn needle t

/-- Python `str.lower()` (ASCII approximation, which is exact on the
English marker words the code searches for). -/
def pyLower (s : String) : String :=
  String.mk (s.data.map Char.toLower)

/-- Python `needle in hay` at `String` level, as used on error messages. -/
def pyContains (hay needle : String) : Bool :=
  strIn needle.data hay.data

/-! Section: the URL validator `YouTubeDownloader.is_valid_youtube_url`.

The source checks `re.match` of
`(https?://)?(www\.)?(youtube|youtu|youtube-nocookie)\.(com|be)/`
`(watch\?v=|embed/|v/|.+\?v=)?([^&=%\?]{11})`
and returns its truthiness.  `re.match` is anchored at the start and
succeeds iff some prefix of the input is in the pattern's language, so we
embed the pattern as a nondeterministic prefix matcher that returns every
possible remainder; the boolean is nonemptiness of that set. -/

def httpsL : List Char := "https://".data
def httpL : List Char := "http://".data
def wwwL : List Char := "www.".data
def ytL : List Char := "youtube".data
def ytuL : List Char := "youtu".data
def ytnL : List Char := "youtube-nocookie".data
def dotL : List Char := ".".data
def comL : List Char := "com".data
def beL : List Char := "be".data
def slashL : List Char := "/".data
def watchL : List Char := "watch?v=".data
def embedL : List Char := "embed/".data
def vSlashL : List Char := "v/".data
def qvL : List Char := "?v=".data

/-- One literal as a matcher step (zero or one remainder). -/
def litStep (p : List Char) (l : List Char) : List (List Char) :=
  match consumeLit p l with
  | some r => [r]
  | none => []

/-- An alternation of literals: remainders after any alternative. -/
def altSteps (ps : List (List Char)) (l : List Char) : List (List Char) :=
  ps.filterMap (fun p => consumeLit p l)

/-- An optional group: the remainders of the body, or the input unchanged. -/
def optStep (f : List Char → List (List Char)) (l : List Char) : List (List Char) :=
  f l ++ [l]

/-- Remainders after consuming one or more characters, none of which may
be a newline (the `.+` of the fourth position alternative; `.` does not
match `\n`). -/
def dropSomeNoNl : List Char → List (List Char)
  | [] => []
  | c :: t => if c = '\n' then [] else t :: dropSomeNoNl t

/-- The optional position group `(watch\?v=|embed/|v/|.+\?v=)?`. -/
def group5Step (l : List Char) : List (List Char) :=
  altSteps [watchL, embedL, vSlashL] l
    ++ (dropSomeNoNl l).filterMap (consumeLit qvL)
    ++ [l]

/-- All remainders after matching the full validator pattern against a
prefix of `l`. -/
def validCands (l : List Char) : List (List Char) :=
  (optStep (altSteps [httpsL, httpL]) l).flatMap fun l1 =>
  (optStep (litStep wwwL) l1).flatMap fun l2 =>
  (altSteps [ytL, ytuL, ytnL] l2).flatMap fun l3 =>
  (litStep dotL l3).flatMap fun l4 =>
  (altSteps [comL, beL] l4).flatMap fun l5 =>
  (litStep slashL l5).flatMap fun l6 =>
  (group5Step l6).flatMap fun l7 =>
  match takeChars goodChar 11 l7 with
  | some x => [x.2]
  | none => []

/-- Truthiness of `youtube_regex.match(url)` on `List Char`. -/
def validList (l : List Char) : Bool :=
  !(validCands l).isEmpty

/-- Embedding of `YouTubeDownloader.is_valid_youtube_url`. -/
def is_valid_youtube_url (url : String) : Bool :=
  validList url.data

/-! Section: URL normalization, `YouTubeDownloader._clean_url`.

The source runs `re.search` with, in order,
`(?:youtube\.com/watch\?v=|youtu\.be/|youtube\.com/embed/)([a-zA-Z0-9_-]{11})`
then `youtube\.com/watch\?.*v=([a-zA-Z0-9_-]{11})`, returning
`https://www.youtube.com/watch?v=<group 1>` on the first match and the
original url if neither pattern matches anywhere. -/

def p1aL : List Char := "youtube.com/watch?v=".data
def p1bL : List Char := "youtu.be/".data
def p1cL : List Char := "youtube.com/embed/".data
def p2preL : List Char := "youtube.com/watch?".data
def vEqL : List Char := "v=".data
def canonPrefixL : List Char := "https://www.youtube.com/watch?v=".data

/-- Try one alternative of pattern 1 at the current position: the literal
prefix followed by exactly 11 id characters; yields the captured id. -/
def p1At (pre : List Char) (l : List Char) : Option (List Char) :=
  match consumeLit pre l with
  | some r =>
      match takeChars idChar 11 r with
      | some x => some x.1
      | none => none
  | none => none

/-- Pattern 1 at the current position, alternatives in source order. -/
def tryP1At (l : List Char) : Option (List Char) :=
  match p1At p1aL l with
  | some tok => some tok
  | none =>
      match p1At p1bL l with
      | some tok => some tok
      | none => p1At p1cL l

/-- Search of pattern 1 as `re.search` does: leftmost position at which it matches. -/
def p1Search : List Char → Option (List Char)
  | [] => none
  | c :: t =>
      match tryP1At (c :: t) with
      | some tok => some tok
      | none => p1Search t

/-- Literal `v=` followed by exactly 11 id characters at the current position. -/
def vTokAt (l : List Char) : Option (List Char) :=
  match consumeLit vEqL l with
  | some r =>
      match takeChars idChar 11 r with
      | some x => some x.1
      | none => none
  | none => none

/-- All captures of `.*v=([a-zA-Z0-9_-]{11})` reachable from the current
position, in increasing order of how much `.*` consumed; `.*` cannot cross
a newline. -/
def p2Caps : List Char → List (List Char)
  | [] => []
  | c :: t =>
      (match vTokAt (c :: t) with
       | some tok => [tok]
       | none => [])
      ++ (if c = '\n' then [] else p2Caps t)

/-- Pattern 2 at the current position: the literal prefix, then the greedy
`.*` picks the rightmost viable capture. -/
def p2At (l : List Char) : Option (List Char) :=
  match consumeLit p2preL l with
  | some r => (p2Caps r).getLast?
  | none => none

/-- Search of pattern 2 as `re.search` does: leftmost position at which it matches. -/
def p2Search : List Char → Option (List Char)
  | [] => none
  | c :: t =>
      match p2At (c :: t) with
      | some tok => some tok
      | none => p2Search t

/-- Embedding of `YouTubeDownloader._clean_url` on `List Char`. -/
def clean_url_list (l : List Char) : List Char :=
  match p1Search l with
  | some videoId => canonPrefixL ++ videoId
  | none =>
      match p2Search l with
      | some videoId => canonPrefixL ++ videoId
      | none => l

/-- Embedding of `YouTubeDownloader._clean_url`. -/
def clean_url (url : String) : String :=
  String.mk (clean_url_list url.data)

def exampleUrlA : String := "https://www.youtube.com/watch?v=abcdefghijk&list=PL123"
def exampleUrlACanon : String := "https://www.youtube.com/watch?v=abcdefghijk"


/-! Section: configuration, the `Settings` object of src/settings.py. -/

/-- Embedding of `Settings` (src/settings.py).  Only the attributes the
downloader reads are carried.  `Settings.__init__` assigns `BOT_TOKEN`,
`BOT_ADMINS`, `LOG_LEVEL`, `LOG_FORMAT`, `DOWNLOAD_DIR`,
`MAX_FILE_SIZE` (megabytes, `os.getenv` default 50), `TEMP_DIR`
(`Path("temp")`) and `DATABASE_URL` — and nothing else. -/
structure Settings where
  MAX_FILE_SIZE : Nat := 50
  TEMP_DIR : String := "temp"
deriving DecidableEq, Repr

/-- Reading `settings.MAX_DURATION`.  No `MAX_DURATION` attribute is ever
assigned in the repository (`Settings.__init__`, src/settings.py lines
9-30, assigns only the attributes listed above, and nothing else assigns
onto the `settings` instance), so this attribute read raises
`AttributeError` on every `Settings` instance; we embed the read as the
`Except` value it evaluates to. -/
def Settings.maxDurationRead (_ : Settings) : Except PyError Nat :=
  .error ⟨"'Settings' object has no attribute 'MAX_DURATION'"⟩

/-- The `settings` global with the `os.getenv` defaults. -/
def defaultSettings : Settings := {}

/-! Section: the delegate oracle and the observable run state. -/

/-- Attribute values of a successfully constructed `pytubefix.YouTube`
object, as read by `extract_info`. -/
structure RawYt where
  title : String
  length : Nat
  author : String
  video_id : String
  views : Nat
  description : String
  age_restricted : Bool
deriving DecidableEq, Repr

/-- The metadata dict built by `extract_info` (lines 70-78). -/
structure InfoDict where
  title : String
  duration : Nat
  author : String
  video_id : String
  views : Nat
  description : String
  age_restricted : Bool
deriving DecidableEq, Repr

/-- One element of `yt.streams`, with the attributes the stream-selection
code filters and orders on. -/
structure YtStream where
  only_audio : Bool
  adaptive : Bool
  file_extension : String
  abr : Nat
  mime_type : String
deriving DecidableEq, Repr

/-- Behaviour of every external delegate and of the scratch filesystem, so
that theorems quantify over all of them, raised exceptions included. -/
structure Env where
  /-- outcome of `YouTube(url, ...)` plus the attribute reads inside
  `extract_info`: either a raise somewhere in the delegate, or the values -/
  probe : String → Except PyError RawYt
  /-- the stream list offered by `yt.streams` at fetch time -/
  streams : List YtStream
  /-- a raise from `YouTube(...)` construction inside the inner `download` -/
  fetchExc : Option PyError
  /-- the slice `str(uuid.uuid4())[:8]` for the fetched-file name -/
  uuid1 : String
  /-- a raise from `audio_stream.download(...)` -/
  downloadExc : Option PyError
  /-- whether the media transfer leaves the file on disk -/
  downloadCreates : Bool
  /-- the slice `str(uuid.uuid4())[:8]` for the mp3 name -/
  uuid2 : String
  /-- a raise from the pydub decode/convert/export chain -/
  convertExc : Option PyError
  /-- byte size of the exported mp3 -/
  mp3Size : Nat

/-- Observable side effects of one pipeline run: how many times the fetch
and transcode stages were entered, and the scratch files currently on disk
as pairs of path and byte size. -/
structure RunState where
  fetchCalls : Nat := 0
  transcodeCalls : Nat := 0
  files : List (String × Nat) := []
deriving DecidableEq, Repr

/-- Check of `Path(p).exists()` against the run's scratch files. -/
def fileExists (s : RunState) (p : String) : Bool :=
  (s.files.find? (fun f => f.1 == p)).isSome

/-- Read of `Path(p).stat().st_size`. -/
def fileSize (s : RunState) (p : String) : Nat :=
  ((s.files.find? (fun f => f.1 == p)).map (fun f => f.2)).getD 0

/-- Creation of a scratch file of `n` bytes. -/
def addFile (s : RunState) (p : String) (n : Nat) : RunState :=
  { s with files := s.files ++ [(p, n)] }

/-- Effect of `Path(p).unlink(missing_ok=True)`. -/
def unlinkFile (s : RunState) (p : String) : RunState :=
  { s with files := s.files.filter (fun f => !(f.1 == p)) }

/-! Section: stream selection inside the inner `download` (lines 135-152). -/

def mp4Ext : String := "mp4"

/-- Filter `only_audio=True, file_extension='mp4'`. -/
def audioMp4Filter (s : YtStream) : Bool :=
  s.only_audio && s.file_extension == mp4Ext

/-- Filter `only_audio=True`. -/
def audioFilter (s : YtStream) : Bool :=
  s.only_audio

/-- Filter `adaptive=True, only_audio=True`. -/
def adaptiveAudioFilter (s : YtStream) : Bool :=
  s.adaptive && s.only_audio

/-- Filter `file_extension='mp4'` (note: no audio-only requirement). -/
def mp4Filter (s : YtStream) : Bool :=
  s.file_extension == mp4Ext

/-- Insertion step for ordering by `abr`, descending. -/
def insertAbrDesc (s : YtStream) : List YtStream → List YtStream
  | [] => [s]
  | t :: ts => if t.abr < s.abr then s :: t :: ts else t :: insertAbrDesc s ts

/-- Embedding of `.order_by('abr').desc()` as an insertion sort. -/
def orderByAbrDesc : List YtStream → List YtStream
  | [] => []
  | s :: ts => insertAbrDesc s (orderByAbrDesc ts)

/-- The `audio_streams` list of the four ordered queries (lines 136-141). -/
def audio_streams (l : List YtStream) : List (List YtStream) :=
  [orderByAbrDesc (l.filter audioMp4Filter),
   orderByAbrDesc (l.filter audioFilter),
   orderByAbrDesc (l.filter adaptiveAudioFilter),
   orderByAbrDesc (l.filter mp4Filter)]

/-- The selection loop (lines 143-148): first nonempty query result,
its `.first()` element. -/
def firstNonemptyHead : List (List YtStream) → Option YtStream
  | [] => none
  | t :: ts =>
      match t.head? with
      | some s => some s
      | none => firstNonemptyHead ts

/-- Stream chosen by the fetch stage from the offered list. -/
def selectAudioStream (l : List YtStream) : Option YtStream :=
  firstNonemptyHead (audio_streams l)

/-! Section: file naming helpers of the fetch and transcode stages. -/

/-- Character kept by `re.sub(r'[^\w\s-]', '', title)` (ASCII
approximation of the Unicode classes `\w` and `\s`). -/
def keepTitleChar (c : Char) : Bool :=
  c.isAlphanum || c = '_' || c.isWhitespace || c = '-'

/-- Python `str.strip()`. -/
def pyStrip (l : List Char) : List Char :=
  ((l.dropWhile Char.isWhitespace).reverse.dropWhile Char.isWhitespace).reverse

/-- Embedding of `re.sub(r'[^\w\s-]', '', title).strip()[:50]`. -/
def sanitizeTitle (t : String) : String :=
  String.mk ((pyStrip (t.data.filter keepTitleChar)).take 50)

/-- Tail of a character list after its last `/`. -/
def lastComponent : List Char → List Char → List Char
  | acc, [] => acc.reverse
  | _, '/' :: t => lastComponent [] t
  | acc, c :: t => lastComponent (c :: acc) t

/-- Embedding of
`audio_stream.mime_type.split('/')[-1] if audio_stream.mime_type else 'mp4'`. -/
def extOfStream (s : YtStream) : String :=
  if s.mime_type = "" then mp4Ext else String.mk (lastComponent [] s.mime_type.data)

/-- Path `settings.TEMP_DIR / name`. -/
def tempPathFor (st : Settings) (name : String) : String :=
  st.TEMP_DIR ++ "/" ++ name

/-! Section: the probe, `YouTubeDownloader.get_video_info`. -/

/-- Sentinel marker words searched in the lowercased error text. -/
def unavailableMarker : String := "unavailable"

def ageMarker : String := "age"

def restrictedMarker : String := "restricted"

def privateMarker : String := "private"

/-- The (heterogeneous) Python return value of `get_video_info`: a
metadata dict, one of three sentinel strings, or `None`. -/
inductive InfoResult where
  | dict (i : InfoDict)
  | unavailableS
  | ageRestrictedS
  | privateS
  | noneV
deriving DecidableEq, Repr

/-- The `extract_info` closure (lines 58-78): delegate construction and
attribute reads (the oracle), plus the explicit empty-title check. -/
def extract_info (env : Env) (url : String) : Except PyError InfoDict :=
  match env.probe url with
  | .error e => .error e
  | .ok yt =>
      if yt.title = "" then .error ⟨"Видео недоступно или не найдено"⟩
      else
        .ok { title := yt.title, duration := yt.length, author := yt.author,
              video_id := yt.video_id, views := yt.views,
              description := String.mk (yt.description.data.take 500),
              age_restricted := yt.age_restricted }

/-- Embedding of `YouTubeDownloader.get_video_info`: cleans the url, runs
the probe, and classifies a raised error by ordered substring match on the
lowercased message (lines 83-96). -/
def get_video_info (env : Env) (url : String) : InfoResult :=
  let url := clean_url url
  match extract_info env url with
  | .ok i => .dict i
  | .error e =>
      let error_msg := pyLower e.msg
      if pyContains error_msg unavailableMarker then .unavailableS
      else if pyContains error_msg ageMarker || pyContains error_msg restrictedMarker then
        .ageRestrictedS
      else if pyContains error_msg privateMarker then .privateS
      else .noneV

/-! Section: the pipeline, `YouTubeDownloader.download_audio`. -/

/-- The closed outcome set of `download_audio`: a file path, one of four
sentinel strings, or Python `None`. -/
inductive Outcome where
  | success (path : String)
  | tooLongS
  | unavailableS
  | ageRestrictedS
  | privateS
  | noneV
deriving DecidableEq, Repr

/-- The inner `download` closure (lines 127-170), executed through
`run_in_executor`; an exception raised inside it re-surfaces at the
`await` inside the outer `try`. -/
def inner_download (env : Env) (st : Settings) (info : InfoDict) (s : RunState) :
    Except PyError (Option String) × RunState :=
  let s := { s with fetchCalls := s.fetchCalls + 1 }
  match env.fetchExc with
  | some e => (.error e, s)
  | none =>
      match selectAudioStream env.streams with
      | none => (.ok none, s)
      | some audio_stream =>
          let temp_filename := sanitizeTitle info.title ++ "_" ++ env.uuid1
          let file_extension := extOfStream audio_stream
          let temp_path := tempPathFor st (temp_filename ++ "." ++ file_extension)
          match env.downloadExc with
          | some e => (.error e, s)
          | none =>
              let s := if env.downloadCreates then addFile s temp_path 0 else s
              (.ok (some temp_path), s)

/-- Embedding of `YouTubeDownloader._convert_to_mp3` (lines 204-242): the
whole body sits in its own `try`, so it returns the new path or `None`;
on success it leaves a new mp3 of `env.mp3Size` bytes on disk.  The
`input_path` argument is only read by pydub (part of the oracle). -/
def convert_to_mp3 (env : Env) (st : Settings) (title : String)
    (input_path : String) (s : RunState) : Option String × RunState :=
  let _ := input_path
  let s := { s with transcodeCalls := s.transcodeCalls + 1 }
  match env.convertExc with
  | some _ => (none, s)
  | none =>
      let output_filename := sanitizeTitle title ++ "_" ++ env.uuid2 ++ ".mp3"
      let output_path := tempPathFor st output_filename
      (some output_path, addFile s output_path env.mp3Size)

/-- The body of `download_audio` inside its outer `try` (lines 100-198);
an `.error` is an exception reaching the outer handler. -/
def download_audio_try (env : Env) (st : Settings) (url : String) (s0 : RunState) :
    Except PyError Outcome × RunState :=
  let url := clean_url url
  match get_video_info env url with
  | .noneV => (.ok .noneV, s0)
  | .unavailableS => (.ok .unavailableS, s0)
  | .ageRestrictedS => (.ok .ageRestrictedS, s0)
  | .privateS => (.ok .privateS, s0)
  | .dict info =>
      let duration := info.duration
      match st.maxDurationRead with
      | .error e => (.error e, s0)
      | .ok maxDuration =>
          if duration > maxDuration then (.ok .tooLongS, s0)
          else
            match inner_download env st info s0 with
            | (.error e, s1) => (.error e, s1)
            | (.ok none, s1) => (.ok .noneV, s1)
            | (.ok (some temp_file_path), s1) =>
                if !(fileExists s1 temp_file_path) then (.ok .noneV, s1)
                else
                  let conv := convert_to_mp3 env st info.title temp_file_path s1
                  let s3 := unlinkFile conv.2 temp_file_path
                  match conv.1 with
                  | some mp3_file_path =>
                      if fileExists s3 mp3_file_path then
                        let file_size := fileSize s3 mp3_file_path
                        if file_size > st.MAX_FILE_SIZE * 1024 * 1024 then
                          (.ok .noneV, unlinkFile s3 mp3_file_path)
                        else (.ok (.success mp3_file_path), s3)
                      else (.ok .noneV, s3)
                  | none => (.ok .noneV, s3)

/-- Embedding of `YouTubeDownloader.download_audio`: the outer
`try/except` (lines 200-202) turns any raised exception into a normal
return of `None`, so the first component is what the caller observes. -/
def download_audio (env : Env) (st : Settings) (url : String) :
    Except PyError Outcome × RunState :=
  match download_audio_try env st url {} with
  | (.ok o, s) => (.ok o, s)
  | (.error _, s) => (.ok .noneV, s)

/-! Section: concrete delegate environments used by concrete theorems. -/

def titleLong : String := "Title"

def titleShort : String := "Short Title"

def titleBig : String := "Big Title"

/-- A probe result with every availability attribute benign. -/
def okYt (title : String) (len : Nat) : RawYt :=
  { title := title, length := len, author := "author", video_id := "abcdefghijk",
    views := 0, description := "", age_restricted := false }

/-- An audio-only mp4 stream. -/
def goodStream : YtStream :=
  { only_audio := true, adaptive := true, file_extension := mp4Ext,
    abr := 128, mime_type := "audio/mp4" }

/-- Environment with a failing probe delegate. -/
def envProbeErr (msg : String) : Env :=
  { probe := fun _ => .error ⟨msg⟩, streams := [], fetchExc := none,
    uuid1 := "", downloadExc := none, downloadCreates := false,
    uuid2 := "", convertExc := none, mp3Size := 0 }

/-- Environment of spec scenario B: the probe reports duration 10000 s and
every later stage is primed to succeed with a 3 MB transcode. -/
def envLong : Env :=
  { probe := fun _ => .ok (okYt titleLong 10000), streams := [goodStream],
    fetchExc := none, uuid1 := "12345678", downloadExc := none,
    downloadCreates := true, uuid2 := "9abcdef0", convertExc := none,
    mp3Size := 3 * 1024 * 1024 }

/-- Environment with a short video and every stage primed to succeed with
a 3 MB transcode. -/
def envAllOk : Env :=
  { probe := fun _ => .ok (okYt titleShort 300), streams := [goodStream],
    fetchExc := none, uuid1 := "12345678", downloadExc := none,
    downloadCreates := true, uuid2 := "9abcdef0", convertExc := none,
    mp3Size := 3 * 1024 * 1024 }

/-- Environment with a short video, every stage primed to succeed, and a
60 MB transcode result exceeding the configured 50 MB. -/
def envOversize : Env :=
  { probe := fun _ => .ok (okYt titleBig 300), streams := [goodStream],
    fetchExc := none, uuid1 := "12345678", downloadExc := none,
    downloadCreates := true, uuid2 := "9abcdef0", convertExc := none,
    mp3Size := 60 * 1024 * 1024 }


/-! Section: the persistence layer, `DatabaseManager` of src/bot/database.py.

Each public coroutine wraps its whole `aiosqlite` interaction in one
`try`; the interaction is therefore modelled as a single oracle value:
either a raise somewhere inside the `try`, or the data the store handed
back.  The embedded method returns `Except` so that the caller-visible
behaviour (normal return versus propagated exception) is explicit. -/

/-- Columns of the `users` table read by `get_user_stats`;
`downloads_count` may be SQL NULL. -/
structure UserRow where
  registration_date : String
  last_activity : String
  downloads_count : Option Nat
deriving DecidableEq, Repr

/-- The stats dict returned by `get_user_stats`. -/
structure UserStats where
  downloads : Nat
  registration_date : String
  last_activity : String
deriving DecidableEq, Repr

/-- The placeholder dict of lines 110-114, also returned by the `except`
branch of line 126. -/
def placeholderStats : UserStats :=
  { downloads := 0, registration_date := "Неизвестно", last_activity := "Сейчас" }

/-- Embedding of `DatabaseManager.get_user_stats` (lines 97-126). -/
def get_user_stats (q : Except PyError (Option UserRow)) : Except PyError UserStats :=
  match q with
  | .error _ => .ok placeholderStats
  | .ok none => .ok placeholderStats
  | .ok (some row) =>
      .ok { downloads := row.downloads_count.getD 0,
            registration_date := row.registration_date,
            last_activity := row.last_activity }

/-- The admin stats dict of `get_admin_stats`. -/
structure AdminStats where
  total_users : Nat
  total_downloads : Nat
  active_users : Nat
deriving DecidableEq, Repr

/-- Embedding of `DatabaseManager.get_admin_stats` (lines 188-215); the
oracle carries the three fetched counters. -/
def get_admin_stats (q : Except PyError (Nat × Nat × Nat)) : Except PyError AdminStats :=
  match q with
  | .error _ => .ok { total_users := 0, total_downloads := 0, active_users := 0 }
  | .ok x => .ok { total_users := x.1, total_downloads := x.2.1, active_users := x.2.2 }

/-- Columns of the `downloads` table fetched by `get_download_history`. -/
structure DownloadRow where
  youtube_url : String
  video_title : String
  file_size : Nat
  download_date : String
  success : Bool
deriving DecidableEq, Repr

/-- The per-row dict built on lines 173-182. -/
structure HistoryEntry where
  url : String
  title : String
  size : Nat
  date : String
  success : Bool
deriving DecidableEq, Repr

/-- Embedding of `DatabaseManager.get_download_history` (lines 160-186). -/
def get_download_history (q : Except PyError (List DownloadRow)) :
    Except PyError (List HistoryEntry) :=
  match q with
  | .error _ => .ok []
  | .ok rows =>
      .ok (rows.map fun r =>
        { url := r.youtube_url, title := r.video_title, size := r.file_size,
          date := r.download_date, success := r.success })

/-- Embedding of `DatabaseManager.add_user` (lines 68-95): the whole body,
including the exists-check and the insert/update branch, sits inside one
`try`; a store failure is logged and swallowed. -/
def add_user (q : Except PyError Unit) : Except PyError Unit :=
  match q with
  | .error _ => .ok ()
  | .ok u => .ok u

/-- Embedding of `DatabaseManager.increment_user_downloads`
(lines 128-142). -/
def increment_user_downloads (q : Except PyError Unit) : Except PyError Unit :=
  match q with
  | .error _ => .ok ()
  | .ok u => .ok u

/-- Embedding of `DatabaseManager.log_download` (lines 144-158). -/
def log_download (q : Except PyError Unit) : Except PyError Unit :=
  match q with
  | .error _ => .ok ()
  | .ok u => .ok u

/-! Section: claim theorems. -/

/-- C1: the claim expects the `TOO_LONG` sentinel for a probed duration
above the configured maximum, with the fetch stage unexecuted.  Evaluating
the code on scenario B (probed duration 10000 s, delegate primed to
succeed): the duration check reads the nonexistent `settings.MAX_DURATION`
attribute, the raised `AttributeError` lands in the blanket handler, and
`download_audio` returns `None` — not `TOO_LONG`.  The fetch stage is
indeed never entered. -/
theorem C1_duration_exceeded_returns_none_not_too_long :
    (download_audio envLong defaultSettings exampleUrlACanon).1 = .ok .noneV
      ∧ (download_audio envLong defaultSettings exampleUrlACanon).1 ≠ .ok .tooLongS
      ∧ (download_audio envLong defaultSettings exampleUrlACanon).2.fetchCalls = 0 := by
  decide

/-- C2: whatever the delegates do — any metadata, any stream list, any
raised exception at any stage — `download_audio` resolves to a normal
return of exactly one member of the closed outcome set (a path or a
sentinel or `None`) and never lets an exception reach its caller. -/
theorem C2_download_audio_never_raises (env : Env) (st : Settings) (url : String) :
    ∃ o : Outcome, (download_audio env st url).1 = Except.ok o := by
  cases h : download_audio_try env st url {} with
  | mk r s =>
      cases r with
      | ok o => exact ⟨o, by simp [download_audio, h]⟩
      | error e => exact ⟨.noneV, by simp [download_audio, h]⟩

/-- C3: the claim speaks about runs that reach the transcode stage.
Evaluating the code with every delegate primed for full success: the run
dies at the duration check (`settings.MAX_DURATION` is never assigned, so
the read raises `AttributeError`), the fetch and transcode stages are
never entered, and no scratch file is ever created — the deletion
discipline the claim describes is dead code. -/
theorem C3_transcode_stage_never_reached :
    (download_audio envAllOk defaultSettings exampleUrlACanon).1 = .ok .noneV
      ∧ (download_audio envAllOk defaultSettings exampleUrlACanon).2.fetchCalls = 0
      ∧ (download_audio envAllOk defaultSettings exampleUrlACanon).2.transcodeCalls = 0
      ∧ (download_audio envAllOk defaultSettings exampleUrlACanon).2.files = [] := by
  decide

/-- C5: the claim speaks about runs whose transcode produces an oversized
file.  Evaluating the code with the delegates primed to produce a 60 MB
transcode under the configured 50 MB limit: the run returns `None` before
the fetch ever happens (the duration check raises `AttributeError` on the
nonexistent `settings.MAX_DURATION`), so the transcode stage and the
post-transcode size check of lines 187-196 never execute. -/
theorem C5_size_check_never_reached :
    (download_audio envOversize defaultSettings exampleUrlACanon).1 = .ok .noneV
      ∧ (download_audio envOversize defaultSettings exampleUrlACanon).2.transcodeCalls = 0
      ∧ (download_audio envOversize defaultSettings exampleUrlACanon).2.files = [] := by
  decide

/-- An accepted-but-not-canonicalizable input: the validator's token class
admits any character outside `&=%?`, the cleaner's patterns demand
`[a-zA-Z0-9_-]`. -/
def bangUrl : String := "https://www.youtube.com/watch?v=!!!!!!!!!!!"

/-- C9: acceptance does not imply canonicalization — this input passes
`is_valid_youtube_url` (its eleven `!` are outside `&=%?`), yet neither
`_clean_url` pattern finds an id (`!` is not in `[a-zA-Z0-9_-]`), so the
url is handed to the prober unchanged. -/
theorem C9_accepted_but_not_canonicalized :
    is_valid_youtube_url bangUrl = true ∧ clean_url bangUrl = bangUrl := by
  decide

/-- C10: every public `DatabaseManager` operation resolves a store failure
to a normal return of its neutral default: the placeholder stats dict
(also for an unknown user), zeroed admin counters, the empty history, and
a plain return for the three mutators; no persistence failure propagates
to the caller. -/
theorem C10_database_swallows_store_failures :
    (∀ e : PyError, get_user_stats (.error e) = .ok placeholderStats)
      ∧ get_user_stats (.ok none) = .ok placeholderStats
      ∧ (∀ e : PyError,
          get_admin_stats (.error e)
            = .ok { total_users := 0, total_downloads := 0, active_users := 0 })
      ∧ (∀ e : PyError, get_download_history (.error e) = .ok [])
      ∧ (∀ q : Except PyError Unit, add_user q = .ok ())
      ∧ (∀ q : Except PyError Unit, increment_user_downloads q = .ok ())
      ∧ (∀ q : Except PyError Unit, log_download q = .ok ()) := by
  refine ⟨fun e => rfl, rfl, fun e => rfl, fun e => rfl, ?_, ?_, ?_⟩
  all_goals intro q; cases q <;> rfl

/-! Section: facts about the stream-selection loop, for claim C4. -/

theorem mem_insertAbrDesc {t s : YtStream} {m : List YtStream} :
    t ∈ insertAbrDesc s m ↔ t = s ∨ t ∈ m := by
  induction m with
  | nil => simp [insertAbrDesc]
  | cons a m' ih =>
      simp only [insertAbrDesc]
      split
      · simp [List.mem_cons]
      · simp only [List.mem_cons, ih]
        tauto

theorem mem_orderByAbrDesc {t : YtStream} {m : List YtStream} :
    t ∈ orderByAbrDesc m ↔ t ∈ m := by
  induction m with
  | nil => simp [orderByAbrDesc]
  | cons a m' ih => simp [orderByAbrDesc, mem_insertAbrDesc, ih]

theorem length_insertAbrDesc (s : YtStream) (m : List YtStream) :
    (insertAbrDesc s m).length = m.length + 1 := by
  induction m with
  | nil => rfl
  | cons a m' ih =>
      simp only [insertAbrDesc]
      split <;> simp [ih]

theorem orderByAbrDesc_ne_nil {m : List YtStream} (h : m ≠ []) :
    orderByAbrDesc m ≠ [] := by
  cases m with
  | nil => exact absurd rfl h
  | cons a m' =>
      simp only [orderByAbrDesc]
      intro hcontra
      have hlen := length_insertAbrDesc a (orderByAbrDesc m')
      rw [hcontra] at hlen
      simp at hlen

theorem headMax_insertAbrDesc (s : YtStream) (m : List YtStream)
    (h : ∀ x ∈ m, ∀ hd ∈ m.head?, x.abr ≤ hd.abr) :
    ∀ x ∈ insertAbrDesc s m, ∀ hd ∈ (insertAbrDesc s m).head?, x.abr ≤ hd.abr := by
  cases m with
  | nil =>
      intro x hx hd hhd
      simp [insertAbrDesc] at hx hhd
      rw [hx, hhd]
  | cons a m' =>
      intro x hx hd hhd
      simp only [insertAbrDesc] at hx hhd
      by_cases hc : a.abr < s.abr
      · rw [if_pos hc] at hx hhd
        simp only [List.head?_cons, Option.mem_def, Option.some.injEq] at hhd
        rcases List.mem_cons.mp hx with h1 | h2
        · rw [h1, ← hhd]
        · rw [← hhd]
          exact le_of_lt (lt_of_le_of_lt (h x h2 a (by simp)) hc)
      · rw [if_neg hc] at hx hhd
        simp only [List.head?_cons, Option.mem_def, Option.some.injEq] at hhd
        rcases List.mem_cons.mp hx with h1 | h2
        · rw [h1, ← hhd]
        · rw [← hhd]
          rcases mem_insertAbrDesc.mp h2 with h3 | h4
          · rw [h3]; exact Nat.le_of_not_lt hc
          · exact h x (List.mem_cons_of_mem a h4) a (by simp)

theorem headMax_orderByAbrDesc (m : List YtStream) :
    ∀ x ∈ orderByAbrDesc m, ∀ hd ∈ (orderByAbrDesc m).head?, x.abr ≤ hd.abr := by
  induction m with
  | nil => intro x hx; simp [orderByAbrDesc] at hx
  | cons a m' ih =>
      simp only [orderByAbrDesc]
      exact headMax_insertAbrDesc a _ ih

/-- Head of the ordered filtered query: a maximal-`abr` member of the
filtered set, when the filter is nonempty. -/
theorem sortedFilter_spec (p : YtStream → Bool) (l : List YtStream)
    (h : ∃ s ∈ l, p s = true) :
    ∃ s, (orderByAbrDesc (l.filter p)).head? = some s ∧ s ∈ l ∧ p s = true
      ∧ ∀ t ∈ l, p t = true → t.abr ≤ s.abr := by
  have hne : l.filter p ≠ [] := by
    rcases h with ⟨s, hs, hp⟩
    intro hnil
    have := List.filter_eq_nil_iff.mp hnil s hs
    exact this hp
  have hsne := orderByAbrDesc_ne_nil hne
  cases hq : orderByAbrDesc (l.filter p) with
  | nil => exact absurd hq hsne
  | cons a q' =>
      have ham : a ∈ orderByAbrDesc (l.filter p) := by rw [hq]; exact List.mem_cons_self a q'
      have haf := mem_orderByAbrDesc.mp ham
      refine ⟨a, rfl, (List.mem_filter.mp haf).1, (List.mem_filter.mp haf).2, ?_⟩
      intro t ht hpt
      have htm : t ∈ orderByAbrDesc (l.filter p) :=
        mem_orderByAbrDesc.mpr (List.mem_filter.mpr ⟨ht, hpt⟩)
      exact headMax_orderByAbrDesc (l.filter p) t htm a (by rw [hq]; simp)

theorem filter_eq_nil_of_false {p : YtStream → Bool} {l : List YtStream}
    (h : ∀ s ∈ l, p s = false) : l.filter p = [] :=
  List.filter_eq_nil_iff.mpr (fun s hs => by rw [h s hs]; exact Bool.false_ne_true)

theorem firstNonemptyHead_some {qs : List (List YtStream)} {s : YtStream}
    (h : firstNonemptyHead qs = some s) : ∃ q ∈ qs, s ∈ q := by
  induction qs with
  | nil => simp [firstNonemptyHead] at h
  | cons q qs' ih =>
      simp only [firstNonemptyHead] at h
      cases hq : q.head? with
      | some a =>
          rw [hq] at h
          have : a = s := by exact Option.some.inj h
          exact ⟨q, List.mem_cons_self q qs', this ▸ List.mem_of_mem_head? (by rw [hq]; rfl)⟩
      | none =>
          rw [hq] at h
          rcases ih h with ⟨q2, hq2, hs⟩
          exact ⟨q2, List.mem_cons_of_mem q hq2, hs⟩

/-- A progressive (not audio-only) mp4 stream. -/
def videoMp4Stream : YtStream :=
  { only_audio := false, adaptive := false, file_extension := mp4Ext,
    abr := 0, mime_type := "video/mp4" }

/-- C4 (counterexample): a source offering only a non-audio-only mp4
stream matches none of the claim's three tiers, so the claim demands a
no-stream failure; the code's fourth fallback query
(`yt.streams.filter(file_extension='mp4')`, line 140) selects that stream
instead, so the run fetches a non-audio-only stream. -/
theorem C4_counterexample_fourth_query_fetches_video_stream :
    selectAudioStream [videoMp4Stream] = some videoMp4Stream
      ∧ videoMp4Stream.only_audio = false := by
  decide

/-- C4 (amended): the fetch stage tries four ordered queries — audio-only
mp4, any audio-only, adaptive audio-only (subsumed by the second), and
finally any mp4 stream regardless of audio-only — each ranked by
descending average bitrate, and fails with no-stream only when all four
are empty; every selected stream is an offered stream that is audio-only
or in the mp4 container. -/
theorem C4_stream_selection_four_tiers (l : List YtStream) :
    ((∃ s ∈ l, audioMp4Filter s = true) →
        ∃ s, selectAudioStream l = some s ∧ s ∈ l ∧ audioMp4Filter s = true
          ∧ ∀ t ∈ l, audioMp4Filter t = true → t.abr ≤ s.abr)
    ∧ ((∀ s ∈ l, audioMp4Filter s = false) → (∃ s ∈ l, s.only_audio = true) →
        ∃ s, selectAudioStream l = some s ∧ s ∈ l ∧ s.only_audio = true
          ∧ ∀ t ∈ l, t.only_audio = true → t.abr ≤ s.abr)
    ∧ ((∀ s ∈ l, s.only_audio = false) → (∃ s ∈ l, mp4Filter s = true) →
        ∃ s, selectAudioStream l = some s ∧ s ∈ l ∧ mp4Filter s = true
          ∧ ∀ t ∈ l, mp4Filter t = true → t.abr ≤ s.abr)
    ∧ ((∀ s ∈ l, s.only_audio = false ∧ mp4Filter s = false) →
        selectAudioStream l = none)
    ∧ (∀ s, selectAudioStream l = some s →
        s ∈ l ∧ (s.only_audio = true ∨ mp4Filter s = true)) := by
  refine ⟨?_, ?_, ?_, ?_, ?_⟩
  · intro h
    rcases sortedFilter_spec audioMp4Filter l h with ⟨s, hhd, hmem, hp, hmax⟩
    exact ⟨s, by simp [selectAudioStream, audio_streams, firstNonemptyHead, hhd],
      hmem, hp, hmax⟩
  · intro h1 h2
    have hf1 : l.filter audioMp4Filter = [] := filter_eq_nil_of_false h1
    have h2' : ∃ s ∈ l, audioFilter s = true := h2
    rcases sortedFilter_spec audioFilter l h2' with ⟨s, hhd, hmem, hp, hmax⟩
    exact ⟨s, by simp [selectAudioStream, audio_streams, firstNonemptyHead, hf1,
      orderByAbrDesc, hhd], hmem, hp, hmax⟩
  · intro h1 h2
    have ha1 : ∀ s ∈ l, audioMp4Filter s = false := by
      intro s hs; simp [audioMp4Filter, h1 s hs]
    have ha2 : ∀ s ∈ l, audioFilter s = false := by
      intro s hs; simpa [audioFilter] using h1 s hs
    have ha3 : ∀ s ∈ l, adaptiveAudioFilter s = false := by
      intro s hs; simp [adaptiveAudioFilter, h1 s hs]
    rcases sortedFilter_spec mp4Filter l h2 with ⟨s, hhd, hmem, hp, hmax⟩
    exact ⟨s, by simp [selectAudioStream, audio_streams, firstNonemptyHead,
      filter_eq_nil_of_false ha1, filter_eq_nil_of_false ha2,
      filter_eq_nil_of_false ha3, orderByAbrDesc, hhd], hmem, hp, hmax⟩
  · intro h
    have ha1 : ∀ s ∈ l, audioMp4Filter s = false := by
      intro s hs; simp [audioMp4Filter, (h s hs).1]
    have ha2 : ∀ s ∈ l, audioFilter s = false := by
      intro s hs; simpa [audioFilter] using (h s hs).1
    have ha3 : ∀ s ∈ l, adaptiveAudioFilter s = false := by
      intro s hs; simp [adaptiveAudioFilter, (h s hs).1]
    have ha4 : ∀ s ∈ l, mp4Filter s = false := by
      intro s hs; exact (h s hs).2
    simp [selectAudioStream, audio_streams, firstNonemptyHead,
      filter_eq_nil_of_false ha1, filter_eq_nil_of_false ha2,
      filter_eq_nil_of_false ha3, filter_eq_nil_of_false ha4, orderByAbrDesc]
  · intro s hsel
    have hsel' : firstNonemptyHead (audio_streams l) = some s := hsel
    rcases firstNonemptyHead_some hsel' with ⟨q, hq, hsq⟩
    simp only [audio_streams, List.mem_cons, List.not_mem_nil, or_false] at hq
    have toMem : ∀ p : YtStream → Bool, q = orderByAbrDesc (l.filter p) →
        s ∈ l ∧ p s = true := by
      intro p hqe
      rw [hqe] at hsq
      have := List.mem_filter.mp (mem_orderByAbrDesc.mp hsq)
      exact this
    rcases hq with h1 | h2 | h3 | h4
    · rcases toMem audioMp4Filter h1 with ⟨hm, hp⟩
      exact ⟨hm, Or.inl ((Bool.and_eq_true _ _).mp hp).1⟩
    · exact (toMem audioFilter h2).imp_right Or.inl
    · rcases toMem adaptiveAudioFilter h3 with ⟨hm, hp⟩
      exact ⟨hm, Or.inl ((Bool.and_eq_true _ _).mp hp).2⟩
    · exact (toMem mp4Filter h4).imp_right Or.inr

/-- Witness for C4: the first query applied to a concrete offer of one
audio-only mp4 stream. -/
theorem C4_stream_selection_four_tiers_witness :
    ∃ s, selectAudioStream [goodStream] = some s ∧ s ∈ [goodStream]
      ∧ audioMp4Filter s = true
      ∧ ∀ t ∈ [goodStream], audioMp4Filter t = true → t.abr ≤ s.abr :=
  (C4_stream_selection_four_tiers [goodStream]).1 ⟨goodStream, by decide, by decide⟩

/-- An error text containing both "private" and "unavailable". -/
def privateUnavailableMsg : String := "Private video is unavailable"

/-- C8 (counterexample): a probe error whose text contains "private" but
also "unavailable" is taken by the earlier branch of the ordered
classification, so the pipeline outcome is Unavailable, not Private —
refuting the claim's "for every probe error whose text contains private,
the pipeline outcome is Private". -/
theorem C8_counterexample_private_text_classified_unavailable :
    pyContains (pyLower privateUnavailableMsg) privateMarker = true
      ∧ (download_audio (envProbeErr privateUnavailableMsg) defaultSettings
          exampleUrlACanon).1 = .ok .unavailableS
      ∧ (download_audio (envProbeErr privateUnavailableMsg) defaultSettings
          exampleUrlACanon).1 ≠ .ok .privateS := by
  decide

/-- C8 (amended): the probe error is classified by substring match on the
lowercased text in source order — "unavailable" first, then "age" or
"restricted", then "private", else a generic `None` — and a text
containing "private" yields the Private outcome exactly when it contains
none of the earlier markers. -/
theorem C8_probe_error_classification (m : String) (st : Settings) (url : String) :
    (pyContains (pyLower m) unavailableMarker = true →
        (download_audio (envProbeErr m) st url).1 = .ok .unavailableS)
    ∧ (pyContains (pyLower m) unavailableMarker = false →
        (pyContains (pyLower m) ageMarker = true
          ∨ pyContains (pyLower m) restrictedMarker = true) →
        (download_audio (envProbeErr m) st url).1 = .ok .ageRestrictedS)
    ∧ (pyContains (pyLower m) unavailableMarker = false →
        pyContains (pyLower m) ageMarker = false →
        pyContains (pyLower m) restrictedMarker = false →
        pyContains (pyLower m) privateMarker = true →
        (download_audio (envProbeErr m) st url).1 = .ok .privateS)
    ∧ (pyContains (pyLower m) unavailableMarker = false →
        pyContains (pyLower m) ageMarker = false →
        pyContains (pyLower m) restrictedMarker = false →
        pyContains (pyLower m) privateMarker = false →
        (download_audio (envProbeErr m) st url).1 = .ok .noneV) := by
  refine ⟨?_, ?_, ?_, ?_⟩
  · intro h1
    simp [download_audio, download_audio_try, get_video_info, extract_info,
      envProbeErr, h1]
  · intro h1 h2
    rcases h2 with h2 | h2 <;>
      simp [download_audio, download_audio_try, get_video_info, extract_info,
        envProbeErr, h1, h2]
  · intro h1 h2 h3 h4
    simp [download_audio, download_audio_try, get_video_info, extract_info,
      envProbeErr, h1, h2, h3, h4]
  · intro h1 h2 h3 h4
    simp [download_audio, download_audio_try, get_video_info, extract_info,
      envProbeErr, h1, h2, h3, h4]

/-- A probe error text containing "private" and no earlier marker. -/
def privateOnlyMsg : String := "This video is private"

/-- Witness for C8: the Private branch at a concrete message. -/
theorem C8_probe_error_classification_witness :
    (download_audio (envProbeErr privateOnlyMsg) defaultSettings exampleUrlACanon).1
      = .ok .privateS :=
  (C8_probe_error_classification privateOnlyMsg defaultSettings exampleUrlACanon).2.2.1
    (by decide) (by decide) (by decide) (by decide)

/-! Section: facts about `_clean_url`, for claims C6 and C9. -/

theorem consumeLit_append (p r : List Char) : consumeLit p (p ++ r) = some r := by
  induction p with
  | nil => rfl
  | cons c p' ih => simp [consumeLit, ih]

theorem takeChars_append (p : Char → Bool) (a b : List Char)
    (h : ∀ c ∈ a, p c = true) : takeChars p a.length (a ++ b) = some (a, b) := by
  induction a with
  | nil => rfl
  | cons c a' ih =>
      simp only [List.length_cons, List.cons_append, takeChars]
      rw [h c (List.mem_cons_self c a')]
      simp [ih (fun x hx => h x (List.mem_cons_of_mem c hx))]

theorem p1At_self (marker id rest : List Char) (hlen : id.length = 11)
    (hid : ∀ c ∈ id, idChar c = true) :
    p1At marker (marker ++ (id ++ rest)) = some id := by
  simp only [p1At, consumeLit_append]
  rw [← hlen]
  simp [takeChars_append idChar id rest hid]

theorem consumeLit_cons_same (c : Char) (ps cs : List Char) :
    consumeLit (c :: ps) (c :: cs) = consumeLit ps cs := by
  simp [consumeLit]

theorem consumeLit_cons_diff {p c : Char} (h : ¬p = c) (ps cs : List Char) :
    consumeLit (p :: ps) (c :: cs) = none := by
  simp [consumeLit, h]

theorem p1At_a_on_b (x : List Char) : p1At p1aL (p1bL ++ x) = none := by
  have hc : consumeLit p1aL (p1bL ++ x) = none := by
    have ha : p1aL = 'y' :: 'o' :: 'u' :: 't' :: 'u' :: 'b' :: "e.com/watch?v=".data := rfl
    have hb : p1bL ++ x = 'y' :: 'o' :: 'u' :: 't' :: 'u' :: '.' :: ("be/".data ++ x) := rfl
    rw [ha, hb, consumeLit_cons_same, consumeLit_cons_same, consumeLit_cons_same,
      consumeLit_cons_same, consumeLit_cons_same]
    exact consumeLit_cons_diff (by decide) _ _
  simp [p1At, hc]

theorem p1At_a_on_c (x : List Char) : p1At p1aL (p1cL ++ x) = none := by
  have hc : consumeLit p1aL (p1cL ++ x) = none := by
    have ha : p1aL = 'y' :: 'o' :: 'u' :: 't' :: 'u' :: 'b' :: 'e' :: '.' :: 'c' :: 'o'
        :: 'm' :: '/' :: 'w' :: "atch?v=".data := rfl
    have hb : p1cL ++ x = 'y' :: 'o' :: 'u' :: 't' :: 'u' :: 'b' :: 'e' :: '.' :: 'c'
        :: 'o' :: 'm' :: '/' :: 'e' :: ("mbed/".data ++ x) := rfl
    rw [ha, hb, consumeLit_cons_same, consumeLit_cons_same, consumeLit_cons_same,
      consumeLit_cons_same, consumeLit_cons_same, consumeLit_cons_same,
      consumeLit_cons_same, consumeLit_cons_same, consumeLit_cons_same,
      consumeLit_cons_same, consumeLit_cons_same, consumeLit_cons_same]
    exact consumeLit_cons_diff (by decide) _ _
  simp [p1At, hc]

theorem p1At_b_on_c (x : List Char) : p1At p1bL (p1cL ++ x) = none := by
  have hc : consumeLit p1bL (p1cL ++ x) = none := by
    have ha : p1bL = 'y' :: 'o' :: 'u' :: 't' :: 'u' :: '.' :: "be/".data := rfl
    have hb : p1cL ++ x = 'y' :: 'o' :: 'u' :: 't' :: 'u' :: 'b' :: ("e.com/embed/".data ++ x) := rfl
    rw [ha, hb, consumeLit_cons_same, consumeLit_cons_same, consumeLit_cons_same,
      consumeLit_cons_same, consumeLit_cons_same]
    exact consumeLit_cons_diff (by decide) _ _
  simp [p1At, hc]

theorem tryP1At_hit (id rest : List Char) (hlen : id.length = 11)
    (hid : ∀ c ∈ id, idChar c = true) :
    tryP1At (p1aL ++ (id ++ rest)) = some id := by
  simp [tryP1At, p1At_self p1aL id rest hlen hid]

theorem tryP1At_hit_b (id rest : List Char) (hlen : id.length = 11)
    (hid : ∀ c ∈ id, idChar c = true) :
    tryP1At (p1bL ++ (id ++ rest)) = some id := by
  simp [tryP1At, p1At_a_on_b (id ++ rest), p1At_self p1bL id rest hlen hid]

theorem tryP1At_hit_c (id rest : List Char) (hlen : id.length = 11)
    (hid : ∀ c ∈ id, idChar c = true) :
    tryP1At (p1cL ++ (id ++ rest)) = some id := by
  simp [tryP1At, p1At_a_on_c (id ++ rest), p1At_b_on_c (id ++ rest),
    p1At_self p1cL id rest hlen hid]

theorem tryP1At_no_y {c : Char} (h : 'y' ≠ c) (t : List Char) :
    tryP1At (c :: t) = none := by
  have ha : p1aL = 'y' :: "outube.com/watch?v=".data := rfl
  have hb : p1bL = 'y' :: "outu.be/".data := rfl
  have hc2 : p1cL = 'y' :: "outube.com/embed/".data := rfl
  simp [tryP1At, p1At, ha, hb, hc2, consumeLit, h]

theorem p1Search_cons_of_none {c : Char} {t : List Char}
    (h : tryP1At (c :: t) = none) : p1Search (c :: t) = p1Search t := by
  simp [p1Search, h]

theorem p1Search_cons_of_some {c : Char} {t : List Char} {tok : List Char}
    (h : tryP1At (c :: t) = some tok) : p1Search (c :: t) = some tok := by
  simp [p1Search, h]

theorem p1Search_skip (pre : List Char) (hpre : ∀ c ∈ pre, 'y' ≠ c) (r : List Char) :
    p1Search (pre ++ r) = p1Search r := by
  induction pre with
  | nil => rfl
  | cons c pre' ih =>
      have hne := hpre c (List.mem_cons_self c pre')
      rw [List.cons_append, p1Search_cons_of_none (tryP1At_no_y hne (pre' ++ r))]
      exact ih (fun x hx => hpre x (List.mem_cons_of_mem c hx))

def wwwPrefixL : List Char := "https://www.".data

/-- Normalization of every link shape recognized by the cleaner's first
pattern: any prefix free of `y` (which covers the empty prefix and every
scheme / `www.` combination of the accepted link forms), one of the three
markers, an 11-character id, and arbitrary trailing text. -/
theorem clean_url_marker (pre marker id suffix : List Char)
    (hpre : ∀ c ∈ pre, 'y' ≠ c)
    (hm : marker = p1aL ∨ marker = p1bL ∨ marker = p1cL)
    (hlen : id.length = 11) (hid : ∀ c ∈ id, idChar c = true) :
    clean_url_list (pre ++ (marker ++ (id ++ suffix))) = canonPrefixL ++ id := by
  have hp1 : p1Search (pre ++ (marker ++ (id ++ suffix))) = some id := by
    rw [p1Search_skip pre hpre]
    rcases hm with h | h | h <;> rw [h]
    · have ht := tryP1At_hit id suffix hlen hid
      have hy : p1aL ++ (id ++ suffix)
          = 'y' :: ("outube.com/watch?v=".data ++ (id ++ suffix)) := rfl
      rw [hy] at ht
      rw [hy, p1Search_cons_of_some ht]
    · have ht := tryP1At_hit_b id suffix hlen hid
      have hy : p1bL ++ (id ++ suffix)
          = 'y' :: ("outu.be/".data ++ (id ++ suffix)) := rfl
      rw [hy] at ht
      rw [hy, p1Search_cons_of_some ht]
    · have ht := tryP1At_hit_c id suffix hlen hid
      have hy : p1cL ++ (id ++ suffix)
          = 'y' :: ("outube.com/embed/".data ++ (id ++ suffix)) := rfl
      rw [hy] at ht
      rw [hy, p1Search_cons_of_some ht]
  simp [clean_url_list, hp1]

/-- An accepted shortened link with a tracking parameter. -/
def shortLinkSiA : String := "https://youtu.be/abcdefghijk?si=AAA"

/-- The same shortened link with a different tracking parameter. -/
def shortLinkSiB : String := "https://youtu.be/abcdefghijk?si=BB"

/-- C6: for every link shape whose identifier the cleaner's first pattern
recognizes — any `y`-free prefix (covering the empty, `http://`,
`https://`, `www.` and combined scheme/www variants), one of the markers
`youtube.com/watch?v=`, `youtu.be/`, `youtube.com/embed/`, then an
11-character id — and every trailing text, normalization returns the one
canonical string carrying exactly that id; hence any two such links
differing only in trailing tracking or playlist parameters normalize
identically.  Scenario A and an accepted `youtu.be/<id>?si=` pair are
checked concretely, and when no identifier is found the input passes
through unchanged. -/
theorem C6_clean_url_normalizes :
    (∀ pre marker id suffix : List Char, (∀ c ∈ pre, 'y' ≠ c) →
        (marker = p1aL ∨ marker = p1bL ∨ marker = p1cL) →
        id.length = 11 → (∀ c ∈ id, idChar c = true) →
        clean_url_list (pre ++ (marker ++ (id ++ suffix))) = canonPrefixL ++ id)
    ∧ (∀ pre marker id s1 s2 : List Char, (∀ c ∈ pre, 'y' ≠ c) →
        (marker = p1aL ∨ marker = p1bL ∨ marker = p1cL) →
        id.length = 11 → (∀ c ∈ id, idChar c = true) →
        clean_url_list (pre ++ (marker ++ (id ++ s1)))
          = clean_url_list (pre ++ (marker ++ (id ++ s2))))
    ∧ clean_url exampleUrlA = exampleUrlACanon
    ∧ (is_valid_youtube_url shortLinkSiA = true
        ∧ is_valid_youtube_url shortLinkSiB = true
        ∧ clean_url shortLinkSiA = exampleUrlACanon
        ∧ clean_url shortLinkSiB = exampleUrlACanon)
    ∧ (∀ l : List Char, p1Search l = none → p2Search l = none →
        clean_url_list l = l) := by
  refine ⟨?_, ?_, by decide, by decide, ?_⟩
  · intro pre marker id suffix hpre hm hlen hid
    exact clean_url_marker pre marker id suffix hpre hm hlen hid
  · intro pre marker id s1 s2 hpre hm hlen hid
    rw [clean_url_marker pre marker id s1 hpre hm hlen hid,
      clean_url_marker pre marker id s2 hpre hm hlen hid]
  · intro l h1 h2
    simp [clean_url_list, h1, h2]

def exampleIdL : List Char := "abcdefghijk".data

def exampleSuffixL : List Char := "&list=PL123".data

def siSuffixL : List Char := "?si=AAA".data

def unrelatedPageL : List Char := "https://example.com/page".data

/-- Witness for C6: the universal applied at a `https://youtu.be/` link
with a tracking suffix, the pair form applied at two different suffixes of
the canonical watch base, and the passthrough applied at an id-free
page. -/
theorem C6_clean_url_normalizes_witness :
    clean_url_list (httpsL ++ (p1bL ++ (exampleIdL ++ siSuffixL)))
        = canonPrefixL ++ exampleIdL
      ∧ clean_url_list (wwwPrefixL ++ (p1aL ++ (exampleIdL ++ exampleSuffixL)))
          = clean_url_list (wwwPrefixL ++ (p1aL ++ (exampleIdL ++ siSuffixL)))
      ∧ clean_url_list unrelatedPageL = unrelatedPageL :=
  ⟨C6_clean_url_normalizes.1 httpsL p1bL exampleIdL siSuffixL (by decide)
      (Or.inr (Or.inl rfl)) (by decide) (by decide),
   C6_clean_url_normalizes.2.1 wwwPrefixL p1aL exampleIdL exampleSuffixL siSuffixL
      (by decide) (Or.inl rfl) (by decide) (by decide),
   C6_clean_url_normalizes.2.2.2.2 unrelatedPageL (by decide) (by decide)⟩

/-! Section: soundness of the validator matcher, for claim C7. -/

theorem consumeLit_sound {p : List Char} : ∀ {l r : List Char},
    consumeLit p l = some r → l = p ++ r := by
  induction p with
  | nil =>
      intro l r h
      simp only [consumeLit, Option.some.injEq] at h
      rw [h]; rfl
  | cons c p' ih =>
      intro l r h
      cases l with
      | nil => simp [consumeLit] at h
      | cons d l' =>
          simp only [consumeLit] at h
          split at h
          · next hcd => rw [List.cons_append, ← hcd, ih h]
          · exact absurd h (by simp)

theorem litStep_sound {p l r : List Char} (h : r ∈ litStep p l) : l = p ++ r := by
  unfold litStep at h
  cases hc : consumeLit p l with
  | some t =>
      rw [hc] at h
      simp only [List.mem_singleton] at h
      rw [h]
      exact consumeLit_sound hc
  | none => rw [hc] at h; simp at h

theorem altSteps_sound {ps : List (List Char)} {l r : List Char}
    (h : r ∈ altSteps ps l) : ∃ p ∈ ps, l = p ++ r := by
  simp only [altSteps, List.mem_filterMap] at h
  rcases h with ⟨p, hp, hc⟩
  exact ⟨p, hp, consumeLit_sound hc⟩

theorem optStep_sound {f : List Char → List (List Char)} {l r : List Char}
    (h : r ∈ optStep f l) : r ∈ f l ∨ r = l := by
  simp only [optStep, List.mem_append, List.mem_singleton] at h
  exact h

theorem dropSomeNoNl_sound {l r : List Char} (h : r ∈ dropSomeNoNl l) :
    ∃ a, a ≠ [] ∧ l = a ++ r := by
  induction l with
  | nil => simp [dropSomeNoNl] at h
  | cons c t ih =>
      simp only [dropSomeNoNl] at h
      by_cases hc : c = '\n'
      · rw [if_pos hc] at h; simp at h
      · rw [if_neg hc] at h
        rcases List.mem_cons.mp h with h1 | h2
        · exact ⟨[c], by simp, by rw [h1]; rfl⟩
        · rcases ih h2 with ⟨a, ha, he⟩
          exact ⟨c :: a, by simp, by rw [he]; rfl⟩

theorem takeChars_sound (p : Char → Bool) : ∀ (n : Nat) (l tok r : List Char),
    takeChars p n l = some (tok, r) →
      l = tok ++ r ∧ tok.length = n ∧ ∀ c ∈ tok, p c = true := by
  intro n
  induction n with
  | zero =>
      intro l tok r h
      simp only [takeChars, Option.some.injEq, Prod.mk.injEq] at h
      rw [← h.1, ← h.2]
      exact ⟨rfl, rfl, by simp⟩
  | succ n' ih =>
      intro l tok r h
      cases l with
      | nil => simp [takeChars] at h
      | cons c cs =>
          simp only [takeChars] at h
          split at h
          · next hpc =>
              cases hk : takeChars p n' cs with
              | none => rw [hk] at h; simp at h
              | some pr =>
                  rw [hk] at h
                  simp only [Option.map_some', Option.some.injEq, Prod.mk.injEq] at h
                  rcases ih cs pr.1 pr.2 (by rw [hk]) with ⟨he, hlen, hgood⟩
                  refine ⟨?_, ?_, ?_⟩
                  · rw [← h.1, ← h.2, List.cons_append, ← he]
                  · rw [← h.1]; simp [hlen]
                  · intro x hx
                    rw [← h.1] at hx
                    rcases List.mem_cons.mp hx with h1 | h2
                    · rw [h1]; exact hpc
                    · exact hgood x h2
          · exact absurd h (by simp)

theorem group5Step_sound {l r : List Char} (h : r ∈ group5Step l) :
    (l = watchL ++ r) ∨ (l = embedL ++ r) ∨ (l = vSlashL ++ r)
      ∨ (∃ a, a ≠ [] ∧ l = a ++ (qvL ++ r)) ∨ r = l := by
  simp only [group5Step, List.mem_append] at h
  rcases h with (h | h) | h
  · rcases altSteps_sound h with ⟨p, hp, he⟩
    simp only [List.mem_cons, List.not_mem_nil, or_false] at hp
    rcases hp with hp | hp | hp <;> rw [hp] at he <;> tauto
  · simp only [List.mem_filterMap] at h
    rcases h with ⟨d, hd, hc⟩
    rcases dropSomeNoNl_sound hd with ⟨a, ha, he⟩
    have hce := consumeLit_sound hc
    right; right; right; left
    exact ⟨a, ha, by rw [he, hce]⟩
  · simp only [List.mem_singleton] at h
    tauto

/-- Every accepted string decomposes as a prefix, a `/` or `=`, then an
11-character run of characters outside `&=%?`: in each position
alternative of the pattern the token is immediately preceded by `/` (the
mandatory host slash, `embed/`, `v/`) or by `=` (`watch?v=`, `.+?v=`). -/
theorem validList_sound {l : List Char} (h : validList l = true) :
    ∃ pre c tok rest, l = pre ++ (c :: (tok ++ rest)) ∧ (c = '/' ∨ c = '=')
      ∧ tok.length = 11 ∧ ∀ x ∈ tok, goodChar x = true := by
  have hne : validCands l ≠ [] := by
    intro hnil
    simp [validList, hnil] at h
  rcases List.exists_mem_of_ne_nil _ hne with ⟨x, hx⟩
  simp only [validCands, List.mem_flatMap] at hx
  rcases hx with ⟨l1, h1, l2, h2, l3, h3, l4, h4, l5, h5, l6, h6, l7, h7, hx⟩
  cases hk : takeChars goodChar 11 l7 with
  | none => rw [hk] at hx; simp at hx
  | some pr =>
      rw [hk] at hx
      rcases takeChars_sound goodChar 11 l7 pr.1 pr.2 (by rw [hk]) with ⟨he7, hlen, hgood⟩
      have s1 : ∃ w, l = w ++ l1 := by
        rcases optStep_sound h1 with hm | hm
        · rcases altSteps_sound hm with ⟨p, _, he⟩; exact ⟨p, he⟩
        · exact ⟨[], by rw [hm]; rfl⟩
      have s2 : ∃ w, l1 = w ++ l2 := by
        rcases optStep_sound h2 with hm | hm
        · exact ⟨wwwL, litStep_sound hm⟩
        · exact ⟨[], by rw [hm]; rfl⟩
      have s3 : ∃ w, l2 = w ++ l3 := by
        rcases altSteps_sound h3 with ⟨p, _, he⟩; exact ⟨p, he⟩
      have s4 : ∃ w, l3 = w ++ l4 := ⟨dotL, litStep_sound h4⟩
      have s5 : ∃ w, l4 = w ++ l5 := by
        rcases altSteps_sound h5 with ⟨p, _, he⟩; exact ⟨p, he⟩
      have s6 : l5 = '/' :: l6 := litStep_sound h6
      have sW : ∃ W, l = W ++ ('/' :: l6) := by
        rcases s1 with ⟨a, e1⟩
        rcases s2 with ⟨b, e2⟩
        rcases s3 with ⟨c2, e3⟩
        rcases s4 with ⟨d, e4⟩
        rcases s5 with ⟨e, e5⟩
        refine ⟨a ++ (b ++ (c2 ++ (d ++ e))), ?_⟩
        rw [e1, e2, e3, e4, e5, s6]
        simp [List.append_assoc]
      rcases sW with ⟨W, hW⟩
      have h7e : l7 = pr.1 ++ pr.2 := he7
      rcases group5Step_sound h7 with hg | hg | hg | hg | hg
      · -- watch?v=
        refine ⟨W ++ ('/' :: "watch?v".data), '=', pr.1, pr.2, ?_, Or.inr rfl, hlen, hgood⟩
        rw [hW, hg, h7e]
        simp [List.append_assoc, watchL]
      · -- embed/
        refine ⟨W ++ ('/' :: "embed".data), '/', pr.1, pr.2, ?_, Or.inl rfl, hlen, hgood⟩
        rw [hW, hg, h7e]
        simp [List.append_assoc, embedL]
      · -- v/
        refine ⟨W ++ ('/' :: ['v']), '/', pr.1, pr.2, ?_, Or.inl rfl, hlen, hgood⟩
        rw [hW, hg, h7e]
        simp [List.append_assoc, vSlashL]
      · -- .+?v=
        rcases hg with ⟨a, _, he⟩
        refine ⟨W ++ ('/' :: (a ++ "?v".data)), '=', pr.1, pr.2, ?_, Or.inr rfl, hlen, hgood⟩
        rw [hW, he, h7e]
        simp [List.append_assoc, qvL]
      · -- position group skipped: token directly after the host slash
        refine ⟨W, '/', pr.1, pr.2, ?_, Or.inl rfl, hlen, hgood⟩
        rw [hW, ← hg, h7e]

/-- Spec-side predicate amending C7: an 11-character run of characters
outside `&=%?` immediately preceded by `/` or `=` somewhere in the
string. -/
def hasTokenRun : List Char → Bool
  | [] => false
  | c :: t => ((c = '/' || c = '=') && (takeChars goodChar 11 t).isSome) || hasTokenRun t

theorem hasTokenRun_of_decomp (pre : List Char) (c : Char) (tok rest : List Char)
    (hc : c = '/' ∨ c = '=') (hlen : tok.length = 11)
    (hgood : ∀ x ∈ tok, goodChar x = true) :
    hasTokenRun (pre ++ (c :: (tok ++ rest))) = true := by
  induction pre with
  | nil =>
      simp only [List.nil_append, hasTokenRun]
      have ht : takeChars goodChar 11 (tok ++ rest) = some (tok, rest) := by
        rw [← hlen]; exact takeChars_append goodChar tok rest hgood
      have hcb : (c = '/' || c = '=') = true := by
        rcases hc with h | h <;> simp [h]
      simp [ht, hcb]
  | cons d pre' ih =>
      simp only [List.cons_append, hasTokenRun, List.append_eq, ih, Bool.or_true]

/-- Spec-side predicate of claim C7 read literally, modelled from the
claim's own list of recognized positions: one of the markers `watch?v=`,
`/embed/`, `/v/` or the shortened-host prefix `youtu.be/`, followed
immediately by an 11-character token outside `&=%?`. -/
def listedMarkers : List (List Char) :=
  [watchL, "/embed/".data, "/v/".data, "youtu.be/".data]

/-- One listed marker plus token at the current position. -/
def tokenAfterMarker (m : List Char) (l : List Char) : Bool :=
  match consumeLit m l with
  | some r => (takeChars goodChar 11 r).isSome
  | none => false

/-- Scan of the whole string for a listed marker with its token. -/
def hasListedToken : List Char → Bool
  | [] => false
  | c :: t => listedMarkers.any (fun m => tokenAfterMarker m (c :: t)) || hasListedToken t

/-- A url accepted through the `.+\?v=` position alternative. -/
def liveUrl : String := "https://www.youtube.com/live?v=abcdefghijk"

/-- A url accepted with the position group skipped entirely. -/
def barePathUrl : String := "youtube.com/abcdefghijk"

/-- C7 (counterexample): two strings accepted by the validator although
their 11-character token follows none of the claim's recognized positions
(`watch?v=`, `/embed/`, `/v/`, shortened path): one accepted through the
`.+\?v=` alternative, one with the optional position group skipped (the
token sits directly after the host slash). -/
theorem C7_counterexample_accepted_without_listed_position :
    (is_valid_youtube_url liveUrl = true ∧ hasListedToken liveUrl.data = false)
      ∧ (is_valid_youtube_url barePathUrl = true
          ∧ hasListedToken barePathUrl.data = false) := by
  decide

def unrelatedWatchUrl : String := "https://example.com/watch?v=abcdefghijk"

def unrelatedDocsUrl : String := "http://docs.python.org"

/-- C7 (amended): every string containing no 11-character run of
characters outside `&=%?` immediately preceded by `/` or `=` is rejected
by the validator; and unrelated-host urls are rejected because the
anchored pattern requires a youtube/youtu/youtube-nocookie host, shown on
two concrete unrelated urls. -/
theorem C7_no_token_run_means_rejected :
    (∀ l : List Char, hasTokenRun l = false → validList l = false)
      ∧ is_valid_youtube_url unrelatedWatchUrl = false
      ∧ is_valid_youtube_url unrelatedDocsUrl = false := by
  refine ⟨?_, by decide, by decide⟩
  intro l h
  cases hb : validList l with
  | false => rfl
  | true =>
      rcases validList_sound hb with ⟨pre, c, tok, rest, he, hc, hlen, hgood⟩
      rw [he, hasTokenRun_of_decomp pre c tok rest hc hlen hgood] at h
      exact absurd h (by simp)

def helloL : List Char := "hello world".data

/-- Witness for C7: the quantified part applied at a concrete token-free
string. -/
theorem C7_no_token_run_means_rejected_witness :
    validList helloL = false :=
  C7_no_token_run_means_rejected.1 helloL (by decide)
